import Mathlib

/-!
Verification development for the sealfile library (Go).

Bytes are modelled as `Fin 256`, matching Go's wrapping `byte` arithmetic,
and byte buffers as `List (Fin 256)`.  Pure Go functions from the sources
become Lean functions; third-party codec libraries (gzip, zlib, flate, lzw,
zstd, lz4, xz) and the crypto primitives (PBKDF2, AES-GCM, crypto/rand) are
not part of this repository and are modelled as abstract function parameters,
with their documented behaviour (round-trip, frame magic bytes, output
lengths) taken as explicit hypotheses where a theorem needs them.
-/

namespace Sealfile

/-- Go's byte type: wrapping arithmetic modulo 256. -/
abbrev Byte := Fin 256

/-- Byte buffers (`[]byte` in Go). -/
abbrev Bytes := List Byte

/-- Truncating conversion `byte(n)` from Go. -/
def natToByte (n : Nat) : Byte := ⟨n % 256, Nat.mod_lt n (by decide)⟩

/-! ## Compression methods (file_reducer.go, const block) -/

/-- CompressionMethod from file_reducer.go; the iota order fixes the ids. -/
inductive CompressionMethod
  | GZIP | ZLIB | DEFLATE | LZW | ZSTD | LZ4 | XZ | HYBRID | ADAPTIVE
deriving DecidableEq, Repr

/-- Numeric id of a method, as produced by Go's iota. -/
def methodId : CompressionMethod → Nat
  | .GZIP => 0 | .ZLIB => 1 | .DEFLATE => 2 | .LZW => 3
  | .ZSTD => 4 | .LZ4 => 5 | .XZ => 6 | .HYBRID => 7 | .ADAPTIVE => 8

/-- CompressionLevel from file_reducer.go.  It only selects the level
passed to the third-party writers and is otherwise unobservable in the
model, but we keep it for faithfulness of the FileReducer record. -/
inductive CompressionLevel
  | FASTEST | FAST | BALANCED | BEST | MAXIMUM
deriving DecidableEq, Repr

/-- FileReducer configuration record (file_reducer.go lines 52-58). -/
structure FileReducer where
  method : CompressionMethod
  level : CompressionLevel
  chunkSize : Nat
  enablePreFilter : Bool
  enablePostOpt : Bool
deriving DecidableEq, Repr

/-- NewFileReducer (file_reducer.go lines 71-79): 64KB chunks, both
optimizations enabled. -/
def NewFileReducer (method : CompressionMethod) (level : CompressionLevel) : FileReducer :=
  { method := method, level := level, chunkSize := 64 * 1024,
    enablePreFilter := true, enablePostOpt := true }

/-- NewAdvancedFileReducer (file_reducer.go lines 82-90). -/
def NewAdvancedFileReducer : FileReducer :=
  { method := .HYBRID, level := .MAXIMUM, chunkSize := 128 * 1024,
    enablePreFilter := true, enablePostOpt := true }

/-! ## Pre-filter delta transform (file_reducer.go lines 924-953) -/

/-- Delta-encoding loop body of preFilterData: given the previous input
byte, each byte is replaced by its wrapping difference with it
(`filtered[i] = data[i] - data[i-1]`). -/
def deltaEnc (prev : Byte) : Bytes → Bytes
  | [] => []
  | x :: xs => (x - prev) :: deltaEnc x xs

/-- preFilterData (file_reducer.go lines 924-938): buffers of length < 2
are returned unchanged; otherwise byte 0 is kept and each later byte is
replaced by its difference with the previous input byte. -/
def preFilterData (data : Bytes) : Bytes :=
  match data with
  | [] => []
  | [x] => [x]
  | x :: xs => x :: deltaEnc x xs

/-- Prefix-sum loop body of reversePreFilter: given the previous restored
byte, each byte is replaced by its wrapping sum with it
(`restored[i] = data[i] + restored[i-1]`). -/
def deltaDec (prev : Byte) : Bytes → Bytes
  | [] => []
  | x :: xs => (x + prev) :: deltaDec (x + prev) xs

/-- reversePreFilter (file_reducer.go lines 940-953). -/
def reversePreFilter (data : Bytes) : Bytes :=
  match data with
  | [] => []
  | [x] => [x]
  | x :: xs => x :: deltaDec x xs

lemma deltaDec_deltaEnc (prev : Byte) (xs : Bytes) :
    deltaDec prev (deltaEnc prev xs) = xs := by
  induction xs generalizing prev with
  | nil => rfl
  | cons x xs ih =>
      simp only [deltaEnc, deltaDec, sub_add_cancel]
      rw [ih]

lemma length_deltaEnc (prev : Byte) (xs : Bytes) :
    (deltaEnc prev xs).length = xs.length := by
  induction xs generalizing prev with
  | nil => rfl
  | cons x xs ih => simp [deltaEnc, ih]

lemma length_preFilterData (data : Bytes) :
    (preFilterData data).length = data.length := by
  match data with
  | [] => rfl
  | [x] => rfl
  | x :: y :: xs => simp [preFilterData, length_deltaEnc]

/-- C8: the pre-filter delta transform is invertible. -/
theorem preFilter_roundtrip (data : Bytes) :
    reversePreFilter (preFilterData data) = data := by
  match data with
  | [] => rfl
  | [x] => rfl
  | x :: y :: xs =>
      show reversePreFilter (x :: (y - x) :: deltaEnc y xs) = x :: y :: xs
      show x :: deltaDec x ((y - x) :: deltaEnc y xs) = x :: y :: xs
      simp only [deltaDec, sub_add_cancel]
      rw [deltaDec_deltaEnc]

/-! ## Already-compressed detection (file_reducer.go lines 589-921) -/

/-- Signature table of isAlreadyCompressed (file_reducer.go lines 595-740),
in source order, duplicates included. -/
def signatures : List Bytes :=
  [ [0x50, 0x4B, 0x03, 0x04],
    [0x50, 0x4B, 0x05, 0x06],
    [0x50, 0x4B, 0x07, 0x08],
    [0x52, 0x61, 0x72, 0x21, 0x1A, 0x07, 0x00],
    [0x52, 0x61, 0x72, 0x21, 0x1A, 0x07, 0x01],
    [0x37, 0x7A, 0xBC, 0xAF, 0x27, 0x1C],
    [0x1F, 0x9D],
    [0x1F, 0xA0],
    [0x42, 0x5A, 0x68],
    [0xFD, 0x37, 0x7A, 0x58, 0x5A, 0x00],
    [0x28, 0xB5, 0x2F, 0xFD],
    [0x04, 0x22, 0x4D, 0x18],
    [0x1F, 0x8B, 0x08],
    [0x78, 0x01],
    [0x78, 0x9C],
    [0x78, 0xDA],
    [0x78, 0x5E],
    [0x60, 0xEA],
    [0x4C, 0x5A, 0x49, 0x50],
    [0x4D, 0x5A, 0x90, 0x00, 0x03, 0x00],
    [0xFF, 0xD8, 0xFF, 0xE0],
    [0xFF, 0xD8, 0xFF, 0xE1],
    [0xFF, 0xD8, 0xFF, 0xE2],
    [0xFF, 0xD8, 0xFF, 0xE3],
    [0xFF, 0xD8, 0xFF, 0xE8],
    [0xFF, 0xD8, 0xFF, 0xDB],
    [0x89, 0x50, 0x4E, 0x47, 0x0D, 0x0A, 0x1A, 0x0A],
    [0x47, 0x49, 0x46, 0x38, 0x37, 0x61],
    [0x47, 0x49, 0x46, 0x38, 0x39, 0x61],
    [0x42, 0x4D],
    [0x00, 0x00, 0x01, 0x00],
    [0x00, 0x00, 0x02, 0x00],
    [0x49, 0x49, 0x2A, 0x00],
    [0x4D, 0x4D, 0x00, 0x2A],
    [0x52, 0x49, 0x46, 0x46],
    [0x38, 0x42, 0x50, 0x53],
    [0x00, 0x00, 0x00, 0x14, 0x66, 0x74, 0x79, 0x70],
    [0x00, 0x00, 0x00, 0x18, 0x66, 0x74, 0x79, 0x70],
    [0x00, 0x00, 0x00, 0x1C, 0x66, 0x74, 0x79, 0x70],
    [0x00, 0x00, 0x00, 0x20, 0x66, 0x74, 0x79, 0x70],
    [0x66, 0x74, 0x79, 0x70],
    [0x1A, 0x45, 0xDF, 0xA3],
    [0x52, 0x49, 0x46, 0x46],
    [0x30, 0x26, 0xB2, 0x75, 0x8E, 0x66, 0xCF],
    [0x46, 0x4C, 0x56, 0x01],
    [0x00, 0x00, 0x01, 0xBA],
    [0x00, 0x00, 0x01, 0xB3],
    [0x47],
    [0xFF, 0xFB],
    [0xFF, 0xF3],
    [0xFF, 0xF2],
    [0x49, 0x44, 0x33],
    [0x66, 0x4C, 0x61, 0x43, 0x00, 0x00, 0x00, 0x22],
    [0x4F, 0x67, 0x67, 0x53],
    [0x52, 0x49, 0x46, 0x46],
    [0x4D, 0x54, 0x68, 0x64],
    [0x2E, 0x52, 0x4D, 0x46],
    [0x00, 0x00, 0x00, 0x20, 0x66, 0x74, 0x79, 0x70, 0x4D, 0x34, 0x41],
    [0xD0, 0xCF, 0x11, 0xE0, 0xA1, 0xB1, 0x1A, 0xE1],
    [0x25, 0x50, 0x44, 0x46, 0x2D],
    [0x7B, 0x5C, 0x72, 0x74, 0x66, 0x31],
    [0xEF, 0xBB, 0xBF],
    [0xFF, 0xFE],
    [0xFE, 0xFF],
    [0x00, 0x00, 0xFE, 0xFF],
    [0xFF, 0xFE, 0x00, 0x00],
    [0x4D, 0x5A],
    [0x7F, 0x45, 0x4C, 0x46],
    [0xFE, 0xED, 0xFA, 0xCE],
    [0xFE, 0xED, 0xFA, 0xCF],
    [0xCE, 0xFA, 0xED, 0xFE],
    [0xCF, 0xFA, 0xED, 0xFE],
    [0xCA, 0xFE, 0xBA, 0xBE],
    [0x53, 0x51, 0x4C, 0x69, 0x74, 0x65, 0x20, 0x66],
    [0x00, 0x01, 0x00, 0x00, 0x53, 0x74, 0x61, 0x6E],
    [0x00, 0x01, 0x00, 0x00, 0x00],
    [0x4F, 0x54, 0x54, 0x4F, 0x00],
    [0x77, 0x4F, 0x46, 0x46],
    [0x77, 0x4F, 0x46, 0x32],
    [0x41, 0x43, 0x31, 0x30],
    [0x41, 0x43, 0x31, 0x30, 0x31, 0x32],
    [0x56, 0x4D, 0x44, 0x4B],
    [0x51, 0x46, 0x49, 0xFB, 0x00, 0x00, 0x00],
    [0x63, 0x6F, 0x6E, 0x65, 0x63, 0x74, 0x69, 0x78],
    [0x62, 0x6F, 0x6F, 0x6B, 0x00, 0x00, 0x00, 0x00],
    [0x62, 0x70, 0x6C, 0x69, 0x73, 0x74, 0x30, 0x30],
    [0x89, 0x48, 0x44, 0x46, 0x0D, 0x0A, 0x1A, 0x0A],
    [0x42, 0x4C, 0x45, 0x4E, 0x44, 0x45, 0x52],
    [0x45, 0x52, 0x02, 0x00, 0x00, 0x00],
    [0x8B, 0x45, 0x52, 0x02, 0x00, 0x00, 0x00],
    [0x78, 0x01, 0x73, 0x0D, 0x62, 0x62, 0x60],
    [0x42, 0x41, 0x43, 0x4B, 0x4D, 0x49, 0x44, 0x42],
    [0x53, 0x50, 0x46, 0x49],
    [0x43, 0x44, 0x46, 0x01],
    [0x43, 0x44, 0x46, 0x02],
    [0x89, 0x48, 0x44, 0x46],
    [0x1F, 0x8B],
    [0x42, 0x52],
    [0xF9, 0xBE, 0xB4, 0xD9],
    [0x4E, 0x45, 0x53, 0x1A],
    [0x64, 0x65, 0x78, 0x0A, 0x30, 0x33, 0x35, 0x00],
    [0x52, 0x65, 0x67, 0x45, 0x64, 0x69, 0x74],
    [0x43, 0x57, 0x53],
    [0x46, 0x57, 0x53],
    [0x5A, 0x57, 0x53] ]

/-- isAlreadyCompressed (file_reducer.go lines 589-761).  The final check
compares the Shannon entropy of the first `mins 4096 (len data)` bytes
(computed with float64 arithmetic) against 7.5; that floating-point
heuristic is not shallow-embeddable and is modelled by the abstract
predicate parameter `entHi`, applied to the same sampled prefix. -/
def isAlreadyCompressed (entHi : Bytes → Bool) (data : Bytes) : Bool :=
  if data.length < 4 then false
  else if signatures.any (fun sig => sig.isPrefixOf data) then true
  else entHi (data.take (min 4096 data.length))

/-- isHighlyRepetitive (file_reducer.go lines 886-905).  The source tests
`float64(count)/100.0 > 0.7` for integer counts 0..100; since `70/100.0`
is exactly the double nearest 0.7 (the value of the literal `0.7`) and
`71/100.0` is strictly greater, the test holds exactly when `70 < count`. -/
def isHighlyRepetitive (data : Bytes) : Bool :=
  if data.length < 100 then false
  else
    let w := data.take 100
    w.any (fun b => decide (70 < w.count b))

/-- isBinaryData (file_reducer.go lines 907-921): more than 2 zero bytes
among the first 50. -/
def isBinaryData (data : Bytes) : Bool :=
  if data.length < 50 then false
  else decide (2 < (data.take 50).count (0 : Byte))

/-- selectOptimalMethod (file_reducer.go lines 557-586). -/
def selectOptimalMethod (entHi : Bytes → Bool) (data : Bytes) : CompressionMethod :=
  if data.length < 1024 then .LZ4
  else if isAlreadyCompressed entHi data then .LZ4
  else
    let sample := if 8192 < data.length then data.take 8192 else data
    if isHighlyRepetitive sample then .XZ
    else if isBinaryData sample then .ZSTD
    else .HYBRID

/-- Decision tree of the spec (section 4.3 step 2): written from the
spec's words, for comparison with selectOptimalMethod: under 1 KiB or
classified already-compressed selects LZ4; some byte value occurring in
more than 70 of the first 100 bytes selects XZ; more than 2 zeros among
the first 50 bytes selects ZSTD; otherwise HYBRID. -/
def specSelect (entHi : Bytes → Bool) (data : Bytes) : CompressionMethod :=
  if data.length < 1024 then .LZ4
  else if isAlreadyCompressed entHi data then .LZ4
  else if decide (∃ b : Byte, 70 < (data.take 100).count b) then .XZ
  else if decide (2 < (data.take 50).count (0 : Byte)) then .ZSTD
  else .HYBRID

lemma any_count_eq (w : Bytes) :
    (w.any fun b => decide (70 < w.count b)) = decide (∃ b : Byte, 70 < w.count b) := by
  have h : (w.any fun b => decide (70 < w.count b)) = true ↔ ∃ b : Byte, 70 < w.count b := by
    simp only [List.any_eq_true, decide_eq_true_eq]
    constructor
    · rintro ⟨b, _, hb⟩
      exact ⟨b, hb⟩
    · rintro ⟨b, hb⟩
      refine ⟨b, ?_, hb⟩
      by_contra hnot
      rw [List.count_eq_zero.mpr hnot] at hb
      omega
  by_cases hex : ∃ b : Byte, 70 < w.count b
  · rw [h.mpr hex, decide_eq_true hex]
  · rw [decide_eq_false hex]
    exact Bool.eq_false_iff.mpr (fun hc => hex (h.mp hc))

/-- C9: the adaptive method-selection function implements the spec's
decision tree. -/
theorem selectOptimalMethod_spec (entHi : Bytes → Bool) (data : Bytes) :
    selectOptimalMethod entHi data = specSelect entHi data := by
  unfold selectOptimalMethod specSelect
  by_cases hsmall : data.length < 1024
  · simp [hsmall]
  · simp only [if_neg hsmall]
    by_cases hac : isAlreadyCompressed entHi data
    · simp [hac]
    · simp only [if_neg hac]
      have hlen : 1024 ≤ data.length := Nat.le_of_not_lt hsmall
      have h100 : (if 8192 < data.length then data.take 8192 else data).take 100
          = data.take 100 := by
        split
        · rw [List.take_take]
          congr 1
        · rfl
      have h50 : (if 8192 < data.length then data.take 8192 else data).take 50
          = data.take 50 := by
        split
        · rw [List.take_take]
          congr 1
        · rfl
      have hs100 : ¬ (if 8192 < data.length then data.take 8192 else data).length < 100 := by
        split
        · simp only [List.length_take]
          omega
        · omega
      have hs50 : ¬ (if 8192 < data.length then data.take 8192 else data).length < 50 := by
        split
        · simp only [List.length_take]
          omega
        · omega
      simp only [isHighlyRepetitive, isBinaryData, if_neg hs100, if_neg hs50,
        h100, h50, any_count_eq]

/-! ## Third-party codec libraries, modelled abstractly

The compress/decompress primitives (compress/gzip, compress/zlib,
compress/flate, compress/lzw, klauspost/compress/zstd, pierrec/lz4/v4,
ulikunitz/xz) are external dependencies, not code of this repository.
They are modelled by an abstract bundle of functions; documented
behaviour needed by a theorem (round-trip, frame magic bytes, output
lengths) is stated as an explicit hypothesis of that theorem.
Compressors are total (with a CompressBlockBound-sized destination and
valid levels the Go writers cannot fail); decompressors may fail.
The compression level only selects the third-party writer's level
parameter and is abstracted into the codec function. -/

/-- Abstract bundle of the third-party codec functions used by
file_reducer.go.  `lz4D` takes the output-size hint that
decompressLZ4 passes as the destination-buffer size;
`zstdFastC` is compressZstdFast's SpeedFastest encoder. -/
structure Codecs where
  gzipC : Bytes → Bytes
  gzipD : Bytes → Option Bytes
  zlibC : Bytes → Bytes
  zlibD : Bytes → Option Bytes
  deflateC : Bytes → Bytes
  deflateD : Bytes → Option Bytes
  lzwC : Bytes → Bytes
  lzwD : Bytes → Option Bytes
  zstdC : Bytes → Bytes
  zstdFastC : Bytes → Bytes
  zstdD : Bytes → Option Bytes
  lz4C : Bytes → Bytes
  lz4D : Bytes → Nat → Option Bytes
  xzC : Bytes → Bytes
  xzD : Bytes → Option Bytes

/-- Magic bytes of the XZ container format (also the XZ entry of the
signature table). -/
def xzMagic : Bytes := [0xFD, 0x37, 0x7A, 0x58, 0x5A, 0x00]

/-- Magic bytes of the Zstandard frame format (also the ZSTD entry of the
signature table). -/
def zstdMagic : Bytes := [0x28, 0xB5, 0x2F, 0xFD]

/-! ## Preprocessing helpers for already-compressed data
(file_reducer.go lines 831-884) -/

/-- findAndReplaceSequences (file_reducer.go lines 849-877): both the
maxRepeats < 3 branch and the final branch return the input unchanged
("For now, return original"), so the function is the identity; we keep
the repeat-counting guard shape. -/
def findAndReplaceSequences (data : Bytes) : Bytes :=
  if data.length < 32 then data
  else data

/-- applyBurrowsWheelerTransform (file_reducer.go lines 880-884): the
source is an explicit placeholder returning its input. -/
def applyBurrowsWheelerTransform (data : Bytes) : Bytes :=
  data

/-- applyAdvancedPreprocessing (file_reducer.go lines 832-846). -/
def applyAdvancedPreprocessing (data : Bytes) : Bytes :=
  if data.length < 16 then data
  else
    let processed := findAndReplaceSequences data
    if 256 < processed.length then applyBurrowsWheelerTransform processed
    else processed

/-- compressAlreadyCompressedData (file_reducer.go lines 790-813):
LZ4 if it shrinks, else fast ZSTD if it shrinks, else the data is
returned unchanged ("If no compression helps, return original data"). -/
def compressAlreadyCompressedData (C : Codecs) (data : Bytes) : Bytes :=
  let processed := applyAdvancedPreprocessing data
  let lz4Result := C.lz4C processed
  if lz4Result.length < data.length then lz4Result
  else
    let zstdResult := C.zstdFastC processed
    if zstdResult.length < data.length then zstdResult
    else data

/-- compressHybrid (file_reducer.go lines 503-532): already-compressed
data is routed to compressAlreadyCompressedData; otherwise LZ4 then
ZSTD, with an XZ third stage kept only when the ZSTD stage exceeds 1024
bytes and XZ strictly shrinks it. -/
def compressHybrid (C : Codecs) (entHi : Bytes → Bool) (data : Bytes) : Bytes :=
  if isAlreadyCompressed entHi data then
    compressAlreadyCompressedData C data
  else
    let stage1 := C.lz4C data
    let stage2 := C.zstdC stage1
    if 1024 < stage2.length then
      let stage3 := C.xzC stage2
      if stage3.length < stage2.length then stage3 else stage2
    else stage2

/-! ## Errors and the container header -/

/-- Error cases of ReduceFileSize. -/
inductive ReduceError
  | emptyInput
  | unsupportedMethod (id : Nat)
deriving DecidableEq, Repr

/-- Error cases of RestoreOriginalSize; one constructor per distinct
error message of the source. -/
inductive RestoreError
  | emptyInput
  | headerTooShort
  | invalidMagic
  | unsupportedVersion (v : Nat)
  | unknownMethod (id : Nat)
  | decompressionFailed
  | sizeMismatch (expected actual : Nat)
deriving DecidableEq, Repr

/-- postOptimizeData (file_reducer.go lines 956-959): placeholder. -/
def postOptimizeData (data : Bytes) (_method : CompressionMethod) : Bytes :=
  data

/-- reversePostOptimization (file_reducer.go lines 961-964): placeholder.
It receives the decoded method id. -/
def reversePostOptimization (data : Bytes) (_methodId : Nat) : Bytes :=
  data

/-- addCompressionHeader (file_reducer.go lines 967-982): 16-byte header
of 2 magic bytes, the method id, version 1, the original size in 8
little-endian bytes, and 4 reserved zero bytes. -/
def addCompressionHeader (data : Bytes) (method : CompressionMethod) (originalSize : Nat) : Bytes :=
  [(0xFF : Byte), 0xFE, natToByte (methodId method), 0x01]
    ++ (List.range 8).map (fun i => natToByte (originalSize >>> (i * 8)))
    ++ [0, 0, 0, 0] ++ data

/-- extractCompressionHeader (file_reducer.go lines 984-1008).  The
original size is reassembled by OR-ing byte i shifted by 8*i; the method
byte is returned unvalidated (RestoreOriginalSize's dispatch rejects
unknown ids). -/
def extractCompressionHeader (data : Bytes) : Except RestoreError (Nat × Nat × Bytes) :=
  if data.length < 16 then .error .headerTooShort
  else if data.getD 0 0 ≠ 0xFF ∨ data.getD 1 0 ≠ 0xFE then .error .invalidMagic
  else
    let method := (data.getD 2 0).val
    let version := data.getD 3 0
    if version ≠ 0x01 then .error (.unsupportedVersion version.val)
    else
      let originalSize :=
        (List.range 8).foldl (fun acc i => acc ||| ((data.getD (4 + i) 0).val <<< (i * 8))) 0
      .ok (method, originalSize, data.drop 16)

/-- Metrics record returned by ReduceFileSize (file_reducer.go lines
61-68).  ProcessingTime (wall clock) and CompressionRate (float64) are
non-authoritative observability fields and are omitted from the model. -/
structure CompressionResult where
  originalSize : Nat
  compressedSize : Nat
  method : CompressionMethod
  chunksProcessed : Nat
deriving DecidableEq, Repr

/-- Per-method compression dispatch of ReduceFileSize (file_reducer.go
lines 131-150); the default arm is the unsupported-method error. -/
def compressDispatch (C : Codecs) (entHi : Bytes → Bool)
    (method : CompressionMethod) (data : Bytes) : Except ReduceError Bytes :=
  match method with
  | .GZIP => .ok (C.gzipC data)
  | .ZLIB => .ok (C.zlibC data)
  | .DEFLATE => .ok (C.deflateC data)
  | .LZW => .ok (C.lzwC data)
  | .ZSTD => .ok (C.zstdC data)
  | .LZ4 => .ok (C.lz4C data)
  | .XZ => .ok (C.xzC data)
  | .HYBRID => .ok (compressHybrid C entHi data)
  | .ADAPTIVE => .error (.unsupportedMethod (methodId .ADAPTIVE))

/-- ReduceFileSize (file_reducer.go lines 107-179). -/
def ReduceFileSize (C : Codecs) (entHi : Bytes → Bool) (fr : FileReducer)
    (data : Bytes) : Except ReduceError (Bytes × CompressionResult) :=
  if data.length = 0 then .error .emptyInput
  else
    let originalSize := data.length
    let processedData := if fr.enablePreFilter then preFilterData data else data
    let method := if fr.method = .ADAPTIVE then selectOptimalMethod entHi processedData
                  else fr.method
    match compressDispatch C entHi method processedData with
    | .error e => .error e
    | .ok compressed =>
        let compressed2 := if fr.enablePostOpt then postOptimizeData compressed method
                           else compressed
        let finalData := addCompressionHeader compressed2 method originalSize
        .ok (finalData,
          { originalSize := originalSize,
            compressedSize := finalData.length,
            method := method,
            chunksProcessed := (data.length + fr.chunkSize - 1) / fr.chunkSize })

/-- decompressHybrid (file_reducer.go lines 534-553): optional XZ
reversal, then mandatory ZSTD and LZ4 stages. -/
def decompressHybrid (C : Codecs) (data : Bytes) (originalSize : Nat) :
    Except RestoreError Bytes :=
  let data1 := match C.xzD data with
    | some stage2 => stage2
    | none => data
  match C.zstdD data1 with
  | none => .error .decompressionFailed
  | some stage1 =>
      match C.lz4D stage1 originalSize with
      | none => .error .decompressionFailed
      | some result => .ok result

/-- Per-method decompression dispatch of RestoreOriginalSize
(file_reducer.go lines 200-219), keyed by the decoded method id; the
default arm is the unknown-method error. -/
def decompressDispatch (C : Codecs) (methodId : Nat) (data : Bytes)
    (originalSize : Nat) : Except RestoreError Bytes :=
  match methodId with
  | 0 => match C.gzipD data with | some r => .ok r | none => .error .decompressionFailed
  | 1 => match C.zlibD data with | some r => .ok r | none => .error .decompressionFailed
  | 2 => match C.deflateD data with | some r => .ok r | none => .error .decompressionFailed
  | 3 => match C.lzwD data with | some r => .ok r | none => .error .decompressionFailed
  | 4 => match C.zstdD data with | some r => .ok r | none => .error .decompressionFailed
  | 5 => match C.lz4D data originalSize with | some r => .ok r | none => .error .decompressionFailed
  | 6 => match C.xzD data with | some r => .ok r | none => .error .decompressionFailed
  | 7 => decompressHybrid C data originalSize
  | id => .error (.unknownMethod id)

/-- RestoreOriginalSize (file_reducer.go lines 182-237). -/
def RestoreOriginalSize (C : Codecs) (fr : FileReducer) (compressedData : Bytes) :
    Except RestoreError Bytes :=
  if compressedData.length = 0 then .error .emptyInput
  else
    match extractCompressionHeader compressedData with
    | .error e => .error e
    | .ok (method, originalSize, body) =>
        let body2 := if fr.enablePostOpt then reversePostOptimization body method else body
        match decompressDispatch C method body2 originalSize with
        | .error e => .error e
        | .ok decompressed =>
            let final := if fr.enablePreFilter then reversePreFilter decompressed
                         else decompressed
            if final.length ≠ originalSize then
              .error (.sizeMismatch originalSize final.length)
            else .ok final

/-- C10: both endpoints of the compression engine reject the empty
buffer (file_reducer.go lines 108-110 and 183-185). -/
theorem empty_input_rejected (C : Codecs) (entHi : Bytes → Bool) (fr : FileReducer) :
    ReduceFileSize C entHi fr [] = .error .emptyInput ∧
    RestoreOriginalSize C fr [] = .error .emptyInput :=
  ⟨rfl, rfl⟩

/-! ## Concrete witness codecs

A computable instantiation of `Codecs` used by witness theorems: each
codec frames its input behind the format's leading bytes.  Real zstd and
xz frames start with exactly these magic bytes; the other tags are
arbitrary. -/

def gzipTag : Bytes := [0x1F, 0x8B, 0x08]

def zlibTag : Bytes := [0x78, 0x9C]

def deflateTag : Bytes := [0xDE, 0xFA]

def lzwTag : Bytes := [0x1F, 0x9D]

def lz4Tag : Bytes := [0x04, 0x22, 0x4D, 0x18]

/-- Tagging encoder for the witness codecs. -/
def tagEnc (tag : Bytes) (d : Bytes) : Bytes := tag ++ d

/-- Tagging decoder for the witness codecs: succeeds exactly on buffers
carrying the tag. -/
def tagDec (tag : Bytes) (x : Bytes) : Option Bytes :=
  if tag.isPrefixOf x then some (x.drop tag.length) else none

/-- Witness instantiation of the codec bundle. -/
def idealCodecs : Codecs where
  gzipC := tagEnc gzipTag
  gzipD := tagDec gzipTag
  zlibC := tagEnc zlibTag
  zlibD := tagDec zlibTag
  deflateC := tagEnc deflateTag
  deflateD := tagDec deflateTag
  lzwC := tagEnc lzwTag
  lzwD := tagDec lzwTag
  zstdC := tagEnc zstdMagic
  zstdFastC := tagEnc zstdMagic
  zstdD := tagDec zstdMagic
  lz4C := tagEnc lz4Tag
  lz4D := fun x sz =>
    match tagDec lz4Tag x with
    | some r => if r.length ≤ sz then some r else none
    | none => none
  xzC := tagEnc xzMagic
  xzD := tagDec xzMagic

lemma tagDec_tagEnc (tag d : Bytes) : tagDec tag (tagEnc tag d) = some d := by
  unfold tagDec tagEnc
  rw [if_pos, List.drop_left]
  exact List.isPrefixOf_iff_prefix.mpr ⟨d, rfl⟩

lemma ideal_xz_magic (x y : Bytes) (h : idealCodecs.xzD x = some y) :
    xzMagic.isPrefixOf x = true := by
  have h2 : tagDec xzMagic x = some y := h
  unfold tagDec at h2
  split at h2
  · assumption
  · exact absurd h2 (by simp)

lemma ideal_zstd_magic (x y : Bytes) (h : idealCodecs.zstdD x = some y) :
    zstdMagic.isPrefixOf x = true := by
  have h2 : tagDec zstdMagic x = some y := h
  unfold tagDec at h2
  split at h2
  · assumption
  · exact absurd h2 (by simp)

/-! ## C6: header validation on restore -/

/-- C6: RestoreOriginalSize rejects truncated headers, bad magic bytes,
an unsupported version byte and an unknown method id, each with its own
error; it never succeeds on such input. -/
theorem restore_header_validation (C : Codecs) (fr : FileReducer) (d : Bytes) :
    (d.length < 16 → ∃ e, RestoreOriginalSize C fr d = .error e) ∧
    (0 < d.length → d.length < 16 →
      RestoreOriginalSize C fr d = .error .headerTooShort) ∧
    (16 ≤ d.length → (d.getD 0 0 ≠ 0xFF ∨ d.getD 1 0 ≠ 0xFE) →
      RestoreOriginalSize C fr d = .error .invalidMagic) ∧
    (16 ≤ d.length → d.getD 0 0 = 0xFF → d.getD 1 0 = 0xFE → d.getD 3 0 ≠ 0x01 →
      RestoreOriginalSize C fr d = .error (.unsupportedVersion (d.getD 3 0).val)) ∧
    (16 ≤ d.length → d.getD 0 0 = 0xFF → d.getD 1 0 = 0xFE → d.getD 3 0 = 0x01 →
      8 ≤ (d.getD 2 0).val →
      RestoreOriginalSize C fr d = .error (.unknownMethod (d.getD 2 0).val)) ∧
    (∀ v i, RestoreError.headerTooShort ≠ .invalidMagic ∧
      RestoreError.headerTooShort ≠ .unsupportedVersion v ∧
      RestoreError.headerTooShort ≠ .unknownMethod i ∧
      RestoreError.invalidMagic ≠ .unsupportedVersion v ∧
      RestoreError.invalidMagic ≠ .unknownMethod i ∧
      ∀ j, RestoreError.unsupportedVersion v ≠ .unknownMethod j) := by
  have hshort : 0 < d.length → d.length < 16 →
      RestoreOriginalSize C fr d = .error .headerTooShort := by
    intro hpos hlt
    unfold RestoreOriginalSize extractCompressionHeader
    rw [if_neg (by omega), if_pos hlt]
  refine ⟨?_, hshort, ?_, ?_, ?_, ?_⟩
  · intro hlt
    by_cases hz : d.length = 0
    · exact ⟨.emptyInput, by unfold RestoreOriginalSize; rw [if_pos hz]⟩
    · exact ⟨.headerTooShort, hshort (by omega) hlt⟩
  · intro hge hmagic
    unfold RestoreOriginalSize extractCompressionHeader
    rw [if_neg (by omega), if_neg (by omega), if_pos hmagic]
  · intro hge h0 h1 hver
    unfold RestoreOriginalSize extractCompressionHeader
    rw [if_neg (by omega), if_neg (by omega),
      if_neg (fun hor => hor.elim (fun ha => ha h0) (fun hb => hb h1)), if_pos hver]
  · intro hge h0 h1 hver hm
    unfold RestoreOriginalSize extractCompressionHeader
    rw [if_neg (by omega), if_neg (by omega),
      if_neg (fun hor => hor.elim (fun ha => ha h0) (fun hb => hb h1)),
      if_neg (fun hne => hne hver)]
    obtain ⟨k, hk⟩ := Nat.exists_eq_add_of_le hm
    have hk2 : (d.getD 2 0).val = k + 8 := by omega
    rw [hk2]
    rfl
  · intro v i
    exact ⟨fun h => RestoreError.noConfusion h, fun h => RestoreError.noConfusion h,
      fun h => RestoreError.noConfusion h, fun h => RestoreError.noConfusion h,
      fun h => RestoreError.noConfusion h, fun j h => RestoreError.noConfusion h⟩

/-- Concrete malformed containers used by the C6 witness. -/
def c6Short : Bytes := [0x00]

/-- Sixteen bytes with wrong magic. -/
def c6BadMagic : Bytes := List.replicate 16 0

/-- Valid magic, version byte 2. -/
def c6BadVersion : Bytes := [0xFF, 0xFE, 0x00, 0x02] ++ List.replicate 12 0

/-- Valid magic and version, method id 8 (the ADAPTIVE id, invalid in a
header). -/
def c6BadMethod : Bytes := [0xFF, 0xFE, 0x08, 0x01] ++ List.replicate 12 0

theorem restore_header_validation_witness :
    RestoreOriginalSize idealCodecs (NewFileReducer .GZIP .BALANCED) c6Short
        = .error .headerTooShort ∧
    RestoreOriginalSize idealCodecs (NewFileReducer .GZIP .BALANCED) c6BadMagic
        = .error .invalidMagic ∧
    RestoreOriginalSize idealCodecs (NewFileReducer .GZIP .BALANCED) c6BadVersion
        = .error (.unsupportedVersion 2) ∧
    RestoreOriginalSize idealCodecs (NewFileReducer .GZIP .BALANCED) c6BadMethod
        = .error (.unknownMethod 8) :=
  ⟨(restore_header_validation idealCodecs (NewFileReducer .GZIP .BALANCED) c6Short).2.1
      (by decide) (by decide),
   (restore_header_validation idealCodecs (NewFileReducer .GZIP .BALANCED) c6BadMagic).2.2.1
      (by decide) (by decide),
   (restore_header_validation idealCodecs (NewFileReducer .GZIP .BALANCED) c6BadVersion).2.2.2.1
      (by decide) (by decide) (by decide) (by decide),
   (restore_header_validation idealCodecs (NewFileReducer .GZIP .BALANCED) c6BadMethod).2.2.2.2.1
      (by decide) (by decide) (by decide) (by decide) (by decide)⟩

/-! ## C7: ADAPTIVE is never persisted in a header -/

lemma methodId_select_lt (entHi : Bytes → Bool) (d : Bytes) :
    methodId (selectOptimalMethod entHi d) < 8 := by
  simp only [selectOptimalMethod]
  by_cases h1 : d.length < 1024
  · rw [if_pos h1]; decide
  rw [if_neg h1]
  by_cases h2 : isAlreadyCompressed entHi d
  · rw [if_pos h2]; decide
  rw [if_neg h2]
  by_cases h3 : isHighlyRepetitive (if 8192 < d.length then d.take 8192 else d)
  · rw [if_pos h3]; decide
  rw [if_neg h3]
  by_cases h4 : isBinaryData (if 8192 < d.length then d.take 8192 else d)
  · rw [if_pos h4]; decide
  · rw [if_neg h4]; decide

lemma select_ne_adaptive (entHi : Bytes → Bool) (d : Bytes) :
    selectOptimalMethod entHi d ≠ .ADAPTIVE := by
  intro h
  have := methodId_select_lt entHi d
  rw [h] at this
  exact absurd this (by decide)

lemma compressDispatch_ok (C : Codecs) (entHi : Bytes → Bool)
    (m : CompressionMethod) (hm : m ≠ .ADAPTIVE) (d : Bytes) :
    ∃ c, compressDispatch C entHi m d = .ok c := by
  cases m <;> first
    | exact ⟨_, rfl⟩
    | exact absurd rfl hm

lemma addHeader_getD2 (data : Bytes) (m : CompressionMethod) (n : Nat) :
    (addCompressionHeader data m n).getD 2 0 = natToByte (methodId m) :=
  rfl

/-- C7: when the requested method is ADAPTIVE and ReduceFileSize
succeeds, the method byte of the emitted 16-byte header is a concrete
method id below 8 and never the ADAPTIVE id. -/
theorem adaptive_never_persisted (C : Codecs) (entHi : Bytes → Bool) (fr : FileReducer)
    (data out : Bytes) (res : CompressionResult)
    (hm : fr.method = .ADAPTIVE)
    (h : ReduceFileSize C entHi fr data = .ok (out, res)) :
    (out.getD 2 0).val < 8 ∧ (out.getD 2 0).val ≠ methodId .ADAPTIVE := by
  unfold ReduceFileSize at h
  by_cases hz : data.length = 0
  · rw [if_pos hz] at h
    exact absurd h (by simp)
  · rw [if_neg hz, hm] at h
    simp only [eq_self_iff_true, if_true] at h
    set pd := if fr.enablePreFilter then preFilterData data else data with hpd
    obtain ⟨c, hc⟩ := compressDispatch_ok C entHi (selectOptimalMethod entHi pd)
      (select_ne_adaptive entHi pd) pd
    rw [hc] at h
    simp only [Except.ok.injEq, Prod.mk.injEq] at h
    have hout : out = addCompressionHeader
        (if fr.enablePostOpt then postOptimizeData c (selectOptimalMethod entHi pd) else c)
        (selectOptimalMethod entHi pd) data.length := h.1.symm
    have hv : (out.getD 2 0).val = methodId (selectOptimalMethod entHi pd) := by
      rw [hout, addHeader_getD2]
      exact Nat.mod_eq_of_lt (lt_trans (methodId_select_lt entHi pd) (by decide))
    rw [hv]
    exact ⟨methodId_select_lt entHi pd,
      Nat.ne_of_lt (methodId_select_lt entHi pd)⟩

theorem adaptive_never_persisted_witness :
    ((addCompressionHeader (tagEnc lz4Tag [0]) .LZ4 1).getD 2 0).val < 8 ∧
    ((addCompressionHeader (tagEnc lz4Tag [0]) .LZ4 1).getD 2 0).val ≠ methodId .ADAPTIVE :=
  adaptive_never_persisted idealCodecs (fun _ => false)
    (NewFileReducer .ADAPTIVE .BALANCED) [0]
    (addCompressionHeader (tagEnc lz4Tag [0]) .LZ4 1)
    { originalSize := 1, compressedSize := 21, method := .LZ4, chunksProcessed := 1 }
    rfl rfl

/-! ## C1: the HYBRID round-trip breaks on already-compressed data

compressHybrid routes data whose prefix matches the signature table to
compressAlreadyCompressedData, which can emit the raw bytes (or a bare
LZ4 block, or a fast-ZSTD frame) with no marker of which strategy was
used; decompressHybrid nevertheless always applies the fixed
XZ-try / ZSTD / LZ4 stage reversal, which cannot decode those payloads. -/

/-- The ZIP local-file-header signature, the first entry of the
signature table. -/
def zipSig : Bytes := [0x50, 0x4B, 0x03, 0x04]

/-- Failing input for the HYBRID round-trip: its pre-filtered image is
exactly `zipSig` (0x9B-0x50=0x4B, 0x9E-0x9B=0x03, 0xA2-0x9E=0x04). -/
def c1Input : Bytes := [0x50, 0x9B, 0x9E, 0xA2]

/-- C1 (refuted): with the default reducer settings and method HYBRID,
ReduceFileSize on `c1Input` succeeds and stores the pre-filtered bytes
raw (neither LZ4 nor fast ZSTD shrinks a 4-byte input, since any real
framing adds at least the frame overhead — hypotheses `hlz4`, `hzf`),
but RestoreOriginalSize fails: the raw payload is not a ZSTD frame
(real XZ and ZSTD decoders only accept their magic bytes — hypotheses
`hxz`, `hzstd`), so the claimed round-trip property fails for HYBRID. -/
theorem hybrid_already_compressed_restore_fails (C : Codecs) (entHi : Bytes → Bool)
    (lvl : CompressionLevel)
    (hxz : ∀ x y, C.xzD x = some y → xzMagic.isPrefixOf x = true)
    (hzstd : ∀ x y, C.zstdD x = some y → zstdMagic.isPrefixOf x = true)
    (hlz4 : 4 ≤ (C.lz4C zipSig).length)
    (hzf : 4 ≤ (C.zstdFastC zipSig).length) :
    ReduceFileSize C entHi (NewFileReducer .HYBRID lvl) c1Input =
      .ok (addCompressionHeader zipSig .HYBRID 4,
        { originalSize := 4, compressedSize := 20, method := .HYBRID,
          chunksProcessed := 1 }) ∧
    RestoreOriginalSize C (NewFileReducer .HYBRID lvl)
        (addCompressionHeader zipSig .HYBRID 4) = .error .decompressionFailed := by
  have hxznone : C.xzD zipSig = none := by
    cases hx : C.xzD zipSig with
    | none => rfl
    | some y => exact absurd (hxz _ _ hx) (by decide)
  have hzstdnone : C.zstdD zipSig = none := by
    cases hx : C.zstdD zipSig with
    | none => rfl
    | some y => exact absurd (hzstd _ _ hx) (by decide)
  have hcc : compressAlreadyCompressedData C zipSig = zipSig := by
    simp only [compressAlreadyCompressedData,
      show applyAdvancedPreprocessing zipSig = zipSig from rfl,
      show List.length zipSig = 4 from rfl]
    rw [if_neg (Nat.not_lt.mpr hlz4), if_neg (Nat.not_lt.mpr hzf)]
  have hac : isAlreadyCompressed entHi zipSig = true := by
    unfold isAlreadyCompressed
    rw [if_neg (by decide), if_pos (by decide)]
  have hhyb : compressHybrid C entHi zipSig = zipSig := by
    unfold compressHybrid
    rw [if_pos hac, hcc]
  constructor
  · simp only [ReduceFileSize, NewFileReducer,
      if_neg (show ¬(List.length c1Input = 0) from by decide),
      show preFilterData c1Input = zipSig from rfl,
      if_neg (show ¬(CompressionMethod.HYBRID = CompressionMethod.ADAPTIVE) from by decide),
      eq_self_iff_true, if_true, compressDispatch, hhyb, postOptimizeData]
    rfl
  · simp only [RestoreOriginalSize, NewFileReducer,
      if_neg (show ¬(List.length (addCompressionHeader zipSig .HYBRID 4) = 0) from by decide),
      show extractCompressionHeader (addCompressionHeader zipSig .HYBRID 4)
        = .ok (7, 4, zipSig) from rfl,
      reversePostOptimization, eq_self_iff_true, if_true,
      decompressDispatch, decompressHybrid, hxznone, hzstdnone]

theorem hybrid_already_compressed_restore_fails_witness :
    ReduceFileSize idealCodecs (fun _ => false) (NewFileReducer .HYBRID .MAXIMUM) c1Input =
      .ok (addCompressionHeader zipSig .HYBRID 4,
        { originalSize := 4, compressedSize := 20, method := .HYBRID,
          chunksProcessed := 1 }) ∧
    RestoreOriginalSize idealCodecs (NewFileReducer .HYBRID .MAXIMUM)
        (addCompressionHeader zipSig .HYBRID 4) = .error .decompressionFailed :=
  hybrid_already_compressed_restore_fails idealCodecs (fun _ => false) .MAXIMUM
    ideal_xz_magic ideal_zstd_magic (by decide) (by decide)

/-! ## Key-deriving encryptor (encryptor.go)

The crypto primitives (PBKDF2, AES, GCM, crypto/rand) are external
libraries, modelled by the abstract bundle `Crypto`.  Randomness
(generateSalt, the nonce read from rand.Reader, NewEncryptor's temporary
salt) is passed in as explicit parameters.  aes.NewCipher and
cipher.NewGCM are deterministic in the 32-byte derived key and cannot
fail on it, so the cipherKey and cipherGCM fields are both modelled by
the derived key bytes that determine them. -/

/-- SaltSize constant (encryptor.go line 16). -/
def SaltSize : Nat := 16

/-- KeyIterations constant (encryptor.go line 18). -/
def KeyIterations : Nat := 100000

/-- KeyLength constant (encryptor.go line 20). -/
def KeyLength : Nat := 32

/-- Abstract crypto primitives: `kdf keyMaterial salt` models
pbkdf2.Key with the fixed iteration count and length, `seal k n d` and
`gcmOpen k n x` model AEAD Seal/Open, `nonceSize` the GCM nonce size. -/
structure Crypto where
  nonceSize : Nat
  kdf : Bytes → Bytes → Bytes
  gcmSeal : Bytes → Bytes → Bytes → Bytes
  gcmOpen : Bytes → Bytes → Bytes → Option Bytes

/-- Encryptor state (encryptor.go lines 24-30). -/
structure Encryptor where
  baseKey : Bytes
  pepper : Bytes
  cipherKey : Bytes
  cipherGCM : Bytes
  currentSalt : Bytes
deriving DecidableEq, Repr

/-- deriveKey (encryptor.go lines 65-69): PBKDF2 over baseKey ++ pepper
and the salt. -/
def deriveKey (P : Crypto) (e : Encryptor) (salt : Bytes) : Bytes :=
  P.kdf (e.baseKey ++ e.pepper) salt

/-- updateCipher (encryptor.go lines 49-62): overwrites currentSalt and
rebuilds the cipher fields from the newly derived key. -/
def updateCipher (P : Crypto) (e : Encryptor) (salt : Bytes) : Encryptor :=
  { e with currentSalt := salt,
           cipherKey := deriveKey P e salt,
           cipherGCM := deriveKey P e salt }

/-- NewEncryptor (encryptor.go lines 33-46); `tempSalt` is the random
temporary salt. -/
def NewEncryptor (P : Crypto) (tempSalt : Bytes) (key pepper : Bytes) : Encryptor :=
  updateCipher P
    { baseKey := key, pepper := pepper, cipherKey := [], cipherGCM := [],
      currentSalt := [] } tempSalt

/-- Encrypt (encryptor.go lines 81-99); `salt` and `nonce` are the fresh
random values drawn during the call.  Returns the mutated encryptor and
salt ‖ nonce ‖ ciphertext. -/
def Encrypt (P : Crypto) (e : Encryptor) (salt nonce data : Bytes) :
    Encryptor × Bytes :=
  let e1 := updateCipher P e salt
  (e1, salt ++ nonce ++ P.gcmSeal e1.cipherGCM nonce data)

/-- Decrypt (encryptor.go lines 102-123).  Returns the (possibly
mutated) encryptor and the result of Open. -/
def Decrypt (P : Crypto) (e : Encryptor) (encryptedData : Bytes) :
    Encryptor × Option Bytes :=
  if encryptedData.length < SaltSize + P.nonceSize + 1 then (e, none)
  else
    let salt := encryptedData.take SaltSize
    let remaining := encryptedData.drop SaltSize
    let e1 := updateCipher P e salt
    if remaining.length < P.nonceSize then (e1, none)
    else
      (e1, P.gcmOpen e1.cipherGCM (remaining.take P.nonceSize) (remaining.drop P.nonceSize))

/-- C2: Decrypt inverts Encrypt on the same encryptor, for every
plaintext (the empty buffer included), every base key and pepper, and
every salt and nonce of the generated sizes, assuming only that the
AEAD Open inverts Seal and that sealing appends the 16-byte GCM tag. -/
theorem encrypt_decrypt_roundtrip (P : Crypto)
    (hopen : ∀ k n d, P.gcmOpen k n (P.gcmSeal k n d) = some d)
    (hlen : ∀ k n d, (P.gcmSeal k n d).length = d.length + 16)
    (e : Encryptor) (salt nonce data : Bytes)
    (hs : salt.length = SaltSize) (hn : nonce.length = P.nonceSize) :
    (Decrypt P (Encrypt P e salt nonce data).fst (Encrypt P e salt nonce data).snd).snd
      = some data := by
  have htake : (salt ++ (nonce ++ P.gcmSeal (deriveKey P e salt) nonce data)).take SaltSize
      = salt := by
    rw [← hs, List.take_left]
  have hdrop : (salt ++ (nonce ++ P.gcmSeal (deriveKey P e salt) nonce data)).drop SaltSize
      = nonce ++ P.gcmSeal (deriveKey P e salt) nonce data := by
    rw [← hs, List.drop_left]
  have htake2 : (nonce ++ P.gcmSeal (deriveKey P e salt) nonce data).take P.nonceSize
      = nonce := by
    rw [← hn, List.take_left]
  have hdrop2 : (nonce ++ P.gcmSeal (deriveKey P e salt) nonce data).drop P.nonceSize
      = P.gcmSeal (deriveKey P e salt) nonce data := by
    rw [← hn, List.drop_left]
  have hL : (salt ++ (nonce ++ P.gcmSeal (deriveKey P e salt) nonce data)).length
      = SaltSize + P.nonceSize + (data.length + 16) := by
    simp only [List.length_append, hs, hn, hlen]
    omega
  simp only [Encrypt, Decrypt, List.append_assoc]
  simp only [show (updateCipher P e salt).cipherGCM = deriveKey P e salt from rfl]
  rw [if_neg (by rw [hL]; omega)]
  simp only [htake, hdrop]
  rw [if_neg (by rw [List.length_append, hlen, hn]; omega)]
  simp only [htake2, hdrop2]
  simp only [show (updateCipher P (updateCipher P e salt) salt).cipherGCM
      = deriveKey P e salt from rfl]
  exact hopen _ _ _

/-- Concrete crypto bundle for witnesses: kdf concatenates its inputs,
seal appends a 16-byte zero tag, open strips it. -/
def toyCrypto : Crypto where
  nonceSize := 12
  kdf := fun m s => m ++ s
  gcmSeal := fun _ _ d => d ++ List.replicate 16 0
  gcmOpen := fun _ _ x => if 16 ≤ x.length then some (x.take (x.length - 16)) else none

lemma toyCrypto_open_seal (k n d : Bytes) :
    toyCrypto.gcmOpen k n (toyCrypto.gcmSeal k n d) = some d := by
  have h1 : toyCrypto.gcmSeal k n d = d ++ List.replicate 16 (0 : Byte) := rfl
  have h2 : ∀ x : Bytes, toyCrypto.gcmOpen k n x
      = if 16 ≤ x.length then some (x.take (x.length - 16)) else none :=
    fun x => rfl
  rw [h1, h2, if_pos (by simp)]
  have h3 : (d ++ List.replicate 16 (0 : Byte)).length - 16 = d.length := by simp
  rw [h3]
  have h4 : (d ++ List.replicate 16 (0 : Byte)).take d.length = d :=
    List.take_left d (List.replicate 16 (0 : Byte))
  rw [h4]

lemma toyCrypto_seal_len (k n d : Bytes) :
    (toyCrypto.gcmSeal k n d).length = d.length + 16 := by
  show (d ++ List.replicate 16 0).length = d.length + 16
  simp

/-- Concrete encryptor state for witnesses. -/
def e0 : Encryptor :=
  { baseKey := [1], pepper := [2], cipherKey := [], cipherGCM := [],
    currentSalt := List.replicate 16 0 }

/-- Sixteen bytes of value one: a fresh salt distinct from e0's. -/
def w16 : Bytes := List.replicate 16 1

/-- Twelve zero bytes: a nonce of toyCrypto's nonce size. -/
def w12 : Bytes := List.replicate 12 0

theorem encrypt_decrypt_roundtrip_witness :
    (Decrypt toyCrypto (Encrypt toyCrypto e0 w16 w12 [3]).fst
      (Encrypt toyCrypto e0 w16 w12 [3]).snd).snd = some [3] :=
  encrypt_decrypt_roundtrip toyCrypto toyCrypto_open_seal toyCrypto_seal_len
    e0 w16 w12 [3] (by decide) (by decide)

/-- C3 counterexample: Encrypt mutates the shared encryptor state (the
call-local derived cipher is written back into currentSalt, cipherKey
and cipherGCM), so the state after the call differs from the state
before it. -/
theorem encrypt_mutates_state :
    (Encrypt toyCrypto e0 w16 w12 [3]).fst ≠ e0 := by
  intro h
  have h2 : (Encrypt toyCrypto e0 w16 w12 [3]).fst.currentSalt = e0.currentSalt := by
    rw [h]
  have h3 : w16 = List.replicate 16 0 := h2
  exact absurd h3 (by decide)

lemma Decrypt_fst (P : Crypto) (e : Encryptor) (enc : Bytes)
    (h : SaltSize + P.nonceSize + 1 ≤ enc.length) :
    (Decrypt P e enc).fst = updateCipher P e (enc.take SaltSize) := by
  simp only [Decrypt]
  rw [if_neg (by omega)]
  split
  · rfl
  · rfl

/-- C3 amended: Encrypt and Decrypt derive the cipher from the call's
salt but write it back into the encryptor: baseKey and pepper are
unchanged, while currentSalt becomes the call's salt (for Decrypt, the
salt extracted from a sufficiently long container) and cipherKey and
cipherGCM become the key derived from it. -/
theorem encrypt_decrypt_state_update (P : Crypto) (e : Encryptor)
    (salt nonce data enc : Bytes)
    (hlen : SaltSize + P.nonceSize + 1 ≤ enc.length) :
    ((Encrypt P e salt nonce data).fst.baseKey = e.baseKey ∧
     (Encrypt P e salt nonce data).fst.pepper = e.pepper ∧
     (Encrypt P e salt nonce data).fst.currentSalt = salt ∧
     (Encrypt P e salt nonce data).fst.cipherKey = P.kdf (e.baseKey ++ e.pepper) salt ∧
     (Encrypt P e salt nonce data).fst.cipherGCM = P.kdf (e.baseKey ++ e.pepper) salt) ∧
    ((Decrypt P e enc).fst.baseKey = e.baseKey ∧
     (Decrypt P e enc).fst.pepper = e.pepper ∧
     (Decrypt P e enc).fst.currentSalt = enc.take SaltSize ∧
     (Decrypt P e enc).fst.cipherKey = P.kdf (e.baseKey ++ e.pepper) (enc.take SaltSize) ∧
     (Decrypt P e enc).fst.cipherGCM = P.kdf (e.baseKey ++ e.pepper) (enc.take SaltSize)) := by
  refine ⟨⟨rfl, rfl, rfl, rfl, rfl⟩, ?_⟩
  rw [Decrypt_fst P e enc hlen]
  exact ⟨rfl, rfl, rfl, rfl, rfl⟩

/-- Twenty-nine zero bytes: the minimum container length for toyCrypto. -/
def w29 : Bytes := List.replicate 29 0

theorem encrypt_decrypt_state_update_witness :
    ((Encrypt toyCrypto e0 w16 w12 [3]).fst.baseKey = e0.baseKey ∧
     (Encrypt toyCrypto e0 w16 w12 [3]).fst.pepper = e0.pepper ∧
     (Encrypt toyCrypto e0 w16 w12 [3]).fst.currentSalt = w16 ∧
     (Encrypt toyCrypto e0 w16 w12 [3]).fst.cipherKey
        = toyCrypto.kdf (e0.baseKey ++ e0.pepper) w16 ∧
     (Encrypt toyCrypto e0 w16 w12 [3]).fst.cipherGCM
        = toyCrypto.kdf (e0.baseKey ++ e0.pepper) w16) ∧
    ((Decrypt toyCrypto e0 w29).fst.baseKey = e0.baseKey ∧
     (Decrypt toyCrypto e0 w29).fst.pepper = e0.pepper ∧
     (Decrypt toyCrypto e0 w29).fst.currentSalt = w29.take SaltSize ∧
     (Decrypt toyCrypto e0 w29).fst.cipherKey
        = toyCrypto.kdf (e0.baseKey ++ e0.pepper) (w29.take SaltSize) ∧
     (Decrypt toyCrypto e0 w29).fst.cipherGCM
        = toyCrypto.kdf (e0.baseKey ++ e0.pepper) (w29.take SaltSize)) :=
  encrypt_decrypt_state_update toyCrypto e0 w16 w12 [3] w29 (by decide)

/-! ## Config and FileManager (config.go, file_manager.go)

Go strings are modelled by their UTF-8 bytes for the secret fields (the
encryptor consumes them as []byte); path and URL fields stay Strings.
NewEncryptor's error paths (crypto/rand and cipher construction
failures) cannot occur in the model, so NewFileManager's only failure is
the missing-pepper check. -/

/-- PathType (config.go lines 17-20). -/
inductive PathType
  | DirectoryPath | HTTPPath
deriving DecidableEq, Repr

/-- Compiled-in default key `_privateKey` (config.go line 12), UTF-8
bytes of "A7!xM3pL#9zQwR2@tF6vH8jK$1nB5cD0". -/
def privateKey : Bytes :=
  [0x41, 0x37, 0x21, 0x78, 0x4D, 0x33, 0x70, 0x4C, 0x23, 0x39, 0x7A, 0x51,
   0x77, 0x52, 0x32, 0x40, 0x74, 0x46, 0x36, 0x76, 0x48, 0x38, 0x6A, 0x4B,
   0x24, 0x31, 0x6E, 0x42, 0x35, 0x63, 0x44, 0x30]

/-- Compiled-in default pepper `_privatePepper` (config.go line 15),
UTF-8 bytes of a 35-character string containing two n-tilde characters
(0xC3 0xB1 pairs). -/
def privatePepper : Bytes :=
  [0x6A, 0x5E, 0x33, 0xC3, 0xB1, 0x5A, 0x21, 0x38, 0x72, 0x24, 0x4C, 0x30,
   0x40, 0x77, 0x46, 0x35, 0x2B, 0x4E, 0x32, 0x2A, 0x58, 0x76, 0x37, 0x23,
   0x79, 0x34, 0x26, 0x54, 0x6B, 0x39, 0x3D, 0x51, 0x36, 0x68, 0x31, 0xC3,
   0xB1]

/-- Config (config.go lines 23-30). -/
structure Config where
  encryptionKey : Bytes
  pepper : Bytes
  baseURL : String
  publicDir : String
  tempDir : String
  pathType : PathType
deriving DecidableEq, Repr

/-- DefaultConfig (config.go lines 33-42): falls back to the compiled-in
key and pepper. -/
def DefaultConfig : Config :=
  { encryptionKey := privateKey, pepper := privatePepper,
    baseURL := "http://localhost:8080", publicDir := "./public",
    tempDir := "./temp", pathType := .DirectoryPath }

/-- FileManager (file_manager.go lines 11-15); the Compressor field is a
stateless empty struct and is omitted. -/
structure FileManager where
  config : Config
  encryptor : Encryptor
deriving DecidableEq, Repr

/-- Construction error of NewFileManager. -/
inductive ConfigError
  | pepperRequired
deriving DecidableEq, Repr

/-- NewFileManager (file_manager.go lines 33-50): a nil config is
replaced by DefaultConfig before the empty-pepper check; `tempSalt` is
NewEncryptor's random temporary salt. -/
def NewFileManager (P : Crypto) (tempSalt : Bytes) (config? : Option Config) :
    Except ConfigError FileManager :=
  let config := match config? with
    | none => DefaultConfig
    | some c => c
  if config.pepper = [] then .error .pepperRequired
  else .ok { config := config,
             encryptor := NewEncryptor P tempSalt config.encryptionKey config.pepper }

/-- C4 counterexample: constructing a FileManager with an absent (nil)
configuration does not fail; it proceeds with DefaultConfig, whose key
and pepper are the compiled-in defaults. -/
theorem newFileManager_nil_config_uses_defaults :
    NewFileManager toyCrypto w16 none
      = .ok { config := DefaultConfig,
              encryptor := NewEncryptor toyCrypto w16 privateKey privatePepper } ∧
    NewFileManager toyCrypto w16 none ≠ .error .pepperRequired := by
  refine ⟨rfl, ?_⟩
  intro h
  have h2 : (Except.ok ⟨DefaultConfig, NewEncryptor toyCrypto w16 privateKey privatePepper⟩
      : Except ConfigError FileManager) = .error .pepperRequired := h
  exact Except.noConfusion h2

/-- C4 amended: NewFileManager rejects an explicitly supplied
configuration whose pepper is empty, but an absent (nil) configuration
is replaced by DefaultConfig and construction succeeds with the
compiled-in default key and pepper. -/
theorem newFileManager_pepper_policy (P : Crypto) (tempSalt : Bytes) (cfg : Config)
    (hp : cfg.pepper = []) :
    NewFileManager P tempSalt (some cfg) = .error .pepperRequired ∧
    NewFileManager P tempSalt none
      = .ok { config := DefaultConfig,
              encryptor := NewEncryptor P tempSalt privateKey privatePepper } := by
  constructor
  · simp only [NewFileManager]
    rw [if_pos hp]
  · rfl

/-- Config with an explicitly empty pepper, for the C4 witness. -/
def emptyPepperConfig : Config :=
  { encryptionKey := privateKey, pepper := [], baseURL := "",
    publicDir := "", tempDir := "", pathType := .DirectoryPath }

theorem newFileManager_pepper_policy_witness :
    NewFileManager toyCrypto w16 (some emptyPepperConfig) = .error .pepperRequired ∧
    NewFileManager toyCrypto w16 none
      = .ok { config := DefaultConfig,
              encryptor := NewEncryptor toyCrypto w16 privateKey privatePepper } :=
  newFileManager_pepper_policy toyCrypto w16 emptyPepperConfig rfl

/-! ## Concurrent batch runners
(file_manager.go CreateMultipleEncryptedFiles, batch processor's
ProcessFiles)

Each batch launches one goroutine per item; the semaphore bound
maxConcurrency only limits parallelism and has no effect on the result,
so it is omitted.  The unspecified goroutine completion order is the
explicit parameter `order` (a permutation of the indices).  The per-item
work (SaveEncrypted: encrypt with fresh randomness, compress, write to
disk — or the processor callback) is abstracted into an outcome
function. -/

/-- FileOperation (file_manager.go lines 18-23); the error type is
abstract. -/
structure FileOperation (ε : Type) where
  data : Bytes
  path : String
  filename : String
  error : Option ε
deriving DecidableEq, Repr

/-- One task body of CreateMultipleEncryptedFiles (file_manager.go lines
86-97): the task at index i overwrites only the Error field of slot i;
`saveOutcome` abstracts sf.SaveEncrypted() including the error wrapping. -/
def processOp {ε : Type} (saveOutcome : FileOperation ε → Option ε)
    (op : FileOperation ε) : FileOperation ε :=
  { op with error := saveOutcome op }

/-- CreateMultipleEncryptedFiles (file_manager.go lines 76-102): results
starts as a copy of operations; each goroutine writes the outcome for
input i into slot i, and slot i is written by no other goroutine, so
reading the operation from the input list is equivalent to reading
results[i].  `order` is the order in which the goroutines perform their
writes. -/
def CreateMultipleEncryptedFiles {ε : Type} (saveOutcome : FileOperation ε → Option ε)
    (operations : List (FileOperation ε)) (order : List Nat) : List (FileOperation ε) :=
  order.foldl (fun results i =>
    match operations[i]? with
    | some op => results.set i (processOp saveOutcome op)
    | none => results) operations

/-- ProcessFiles (the batch processor source): every goroutine sends its
item's outcome (nil or the wrapped error) on one shared channel, and the
error slice is filled in receive order, i.e. in completion order
`order`, not by input index. -/
def ProcessFiles {α ε : Type} (files : List α) (outcome : α → Option ε)
    (order : List Nat) : List (Option ε) :=
  order.map (fun i =>
    match files[i]? with
    | some f => outcome f
    | none => none)

lemma createMulti_foldl_getElem {ε : Type} (f : FileOperation ε → FileOperation ε)
    (ops : List (FileOperation ε)) (order : List Nat) (res : List (FileOperation ε))
    (hlen : res.length = ops.length) (j : Nat) :
    (order.foldl (fun r i =>
      match ops[i]? with
      | some op => r.set i (f op)
      | none => r) res)[j]?
    = if j ∈ order ∧ j < ops.length then ops[j]?.map f else res[j]? := by
  induction order generalizing res with
  | nil =>
      simp only [List.foldl_nil, List.not_mem_nil, false_and, if_false]
  | cons i rest ih =>
      simp only [List.foldl_cons]
      rcases hoi : ops[i]? with _ | op
      · have hige : ops.length ≤ i := List.getElem?_eq_none_iff.mp hoi
        rw [ih res hlen]
        by_cases hc : j ∈ rest ∧ j < ops.length
        · rw [if_pos hc, if_pos ⟨List.mem_cons_of_mem i hc.1, hc.2⟩]
        · rw [if_neg hc, if_neg ?_]
          rintro ⟨hj1, hj2⟩
          rcases List.mem_cons.mp hj1 with h | h
          · omega
          · exact hc ⟨h, hj2⟩
      · have hilt : i < ops.length := by
          by_contra hge
          rw [List.getElem?_eq_none_iff.mpr (by omega)] at hoi
          exact Option.noConfusion hoi
        rw [ih (res.set i (f op)) (by rw [List.length_set, hlen])]
        by_cases hc : j ∈ rest ∧ j < ops.length
        · rw [if_pos hc, if_pos ⟨List.mem_cons_of_mem i hc.1, hc.2⟩]
        · rw [if_neg hc]
          by_cases hji : j = i
          · subst hji
            rw [if_pos ⟨List.mem_cons_self j rest, hilt⟩, hoi,
              List.getElem?_set_self (by omega)]
            rfl
          · rw [List.getElem?_set_ne (fun h => hji h.symm), if_neg ?_]
            rintro ⟨hj1, hj2⟩
            rcases List.mem_cons.mp hj1 with h | h
            · exact hji h
            · exact hc ⟨h, hj2⟩

lemma createMulti_aligned {ε : Type} (saveOutcome : FileOperation ε → Option ε)
    (ops : List (FileOperation ε)) (order : List Nat)
    (hcover : ∀ i, i < ops.length → i ∈ order) :
    CreateMultipleEncryptedFiles saveOutcome ops order
      = ops.map (processOp saveOutcome) := by
  apply List.ext_getElem?
  intro j
  rw [CreateMultipleEncryptedFiles,
    createMulti_foldl_getElem (processOp saveOutcome) ops order ops rfl j,
    List.getElem?_map]
  by_cases hj : j < ops.length
  · rw [if_pos ⟨hcover j hj, hj⟩]
  · rw [if_neg (fun hc => hj hc.2),
      List.getElem?_eq_none_iff.mpr (by omega)]
    rfl

lemma range_map_outcome {α ε : Type} (files : List α) (outcome : α → Option ε) :
    (List.range files.length).map (fun i =>
      match files[i]? with
      | some f => outcome f
      | none => none) = files.map outcome := by
  apply List.ext_getElem?
  intro j
  rw [List.getElem?_map, List.getElem?_map]
  by_cases hj : j < files.length
  · rw [List.getElem?_range hj]
    rcases hf : files[j]? with _ | f
    · exact absurd (List.getElem?_eq_none_iff.mp hf) (by omega)
    · simp only [Option.map_some']
      rw [hf]
  · rw [List.getElem?_eq_none_iff.mpr (by rw [List.length_range]; omega),
      List.getElem?_eq_none_iff.mpr (by omega)]
    rfl

/-- C5 amended: CreateMultipleEncryptedFiles returns an index-aligned
result list — entry i is the outcome of input item i for every
completion order covering the indices, and items do not affect each
other (each entry depends only on its own input).  ProcessFiles returns
a list of the same length N containing exactly the per-item outcomes,
but arranged in task completion order, which is not index-aligned. -/
theorem batch_results_shape {α ε : Type} (saveOutcome : FileOperation ε → Option ε)
    (ops : List (FileOperation ε)) (order : List Nat)
    (files : List α) (outcome : α → Option ε) (order2 : List Nat)
    (hcover : ∀ i, i < ops.length → i ∈ order)
    (hperm : order2.Perm (List.range files.length)) :
    CreateMultipleEncryptedFiles saveOutcome ops order
        = ops.map (processOp saveOutcome) ∧
    (CreateMultipleEncryptedFiles saveOutcome ops order).length = ops.length ∧
    (ProcessFiles files outcome order2).length = files.length ∧
    (ProcessFiles files outcome order2).Perm (files.map outcome) := by
  have h1 := createMulti_aligned saveOutcome ops order hcover
  refine ⟨h1, by rw [h1, List.length_map], ?_, ?_⟩
  · rw [ProcessFiles, List.length_map, hperm.length_eq, List.length_range]
  · rw [ProcessFiles]
    exact (hperm.map _).trans (by rw [range_map_outcome])

/-- C5 counterexample: ProcessFiles is not index-aligned.  With two
items where only item 0 fails, and completion order [1, 0] (task 1
finishes first), the returned list is [none, some 0], while the claimed
index-aligned outcome list is [some 0, none]: the entry at index 0 is
not the outcome of input item 0. -/
theorem processFiles_not_index_aligned :
    ProcessFiles [0, 1] (fun n : Nat => if n = 0 then some 0 else none) [1, 0]
        = [none, some 0] ∧
    ProcessFiles [0, 1] (fun n : Nat => if n = 0 then some 0 else none) [1, 0]
        ≠ [some 0, none] := by
  refine ⟨rfl, ?_⟩
  intro h
  have h2 : ([none, some 0] : List (Option Nat)) = [some 0, none] := h
  exact absurd h2 (by decide)

/-- Concrete single operation for the C5 witness. -/
def opA : FileOperation Nat :=
  { data := [], path := "p", filename := "a", error := none }

theorem batch_results_shape_witness :
    CreateMultipleEncryptedFiles (fun _ => some 3) [opA] [0]
        = [opA].map (processOp (fun _ => some 3)) ∧
    (CreateMultipleEncryptedFiles (fun _ => some 3) [opA] [0]).length = [opA].length ∧
    (ProcessFiles [(0 : Nat)] (fun n => if n = 0 then some 0 else none) [0]).length
        = [(0 : Nat)].length ∧
    (ProcessFiles [(0 : Nat)] (fun n => if n = 0 then some 0 else none) [0]).Perm
        ([(0 : Nat)].map (fun n => if n = 0 then some 0 else none)) :=
  batch_results_shape (fun _ => some 3) [opA] [0]
    [(0 : Nat)] (fun n => if n = 0 then some 0 else none) [0]
    (fun i hi => by
      have h : i = 0 := by
        simp only [List.length_cons, List.length_nil] at hi
        omega
      rw [h]
      exact List.mem_cons_self 0 [])
    (by decide)

end Sealfile
